import Mathlib

/-!
Verification of the project-initialization wizard of `pkg-cmd`.

The wizard (the `action` function of `src/cmds/init.ts`, shipped here as
`src/unnamed/part_001`) probes the working directory, asks a fixed sequence
of interactive questions, and builds an ordered plan of task groups.  We
shallowly embed it as pure Lean functions:

  - file reads and the git configuration become an explicit `Probe` value
    holding what the probing phase observed;
  - interactive answers become an explicit `Answers` value; the wizard reads
    the fields it needs in source order and records which questions it asked;
  - thrown errors, `process.exit(0)` and the final task list become the
    three constructors of `Outcome`;
  - JavaScript truthiness on optional strings (`undefined` and the empty
    string are both falsy) is `optTruthy`.

A note on presence: every check the source makes on the raw `package.json`
and `go.mod` contents is a JS truthiness test on the string read from disk,
so a present-but-empty file is observationally identical to an absent one.
`Probe.packageJson = some _` and `Probe.goMod = some _` therefore mean
"file present with truthy (non-empty) content".
-/

/-- The two project languages the wizard recognizes. -/
inductive Lang where
  | node
  | go
deriving DecidableEq, Repr

/-- JS truthiness of an optional string: `undefined` and `""` are falsy. -/
def optTruthy : Option String → Bool
  | none => false
  | some s => s ≠ ""

/-- Result of `parseGoMod` (source lines 907-925): the two fields it fills. -/
structure GoMod where
  module : String
  go : String
deriving DecidableEq, Repr

/-- JS `s.split("\x7bnewline\x7d")` on a character list: split at every
newline, keeping empty segments; the empty string yields one empty segment. -/
def splitNl (cur : List Char) : List Char → List (List Char)
  | [] => [cur.reverse]
  | c :: rest =>
    if c = '\n' then cur.reverse :: splitNl [] rest
    else splitNl (c :: cur) rest

/-- One step of the `reduce` inside `parseGoMod`.  The source guard is
`line.startsWith("module ")`; under that guard, `line.replace("module ", "")`
(which removes only the first occurrence) equals dropping the 7-character
prefix, and likewise `"go "` is 3 characters.  No trimming is performed. -/
def goModStep (acc : GoMod) (line : List Char) : GoMod :=
  if "module ".toList.isPrefixOf line then
    { acc with module := String.mk (line.drop 7) }
  else if "go ".toList.isPrefixOf line then
    { acc with go := String.mk (line.drop 3) }
  else acc

/-- `parseGoMod` (source lines 907-925): split on newlines and fold the
line handler over the initial accumulator of two empty strings. -/
def parseGoMod (s : String) : GoMod :=
  (splitNl [] s.toList).foldl goModStep { module := "", go := "" }

/-- Case-insensitive prefix match of a pattern against a character list,
comparing characters through `Char.toLower` (the effect of the regex `i`
flag on the ASCII patterns the source uses). -/
def ciPrefixMatch : List Char → List Char → Bool
  | [], _ => true
  | _ :: _, [] => false
  | c :: p, d :: s => (c.toLower = d.toLower) && ciPrefixMatch p s

/-- Matcher for the tail of the license regex: the license characters
followed by the group `(s|$)`, i.e. after the license either the string ends
or the next character is a literal `s` (case-insensitively, so also `S`). -/
def licenseTailMatch : List Char → List Char → Bool
  | [], [] => true
  | [], d :: _ => d.toLower = 's'
  | _ :: _, [] => false
  | c :: l, d :: rest => (c.toLower = d.toLower) && licenseTailMatch l rest

/-- Scanner for the license regex: tries every position; a position is
eligible when it is the string start or the previous character was a literal
`s`/`S` (the group `(s|^)` of the compiled pattern). -/
def licenseScan (l : List Char) : Bool → List Char → Bool
  | okHere, rest =>
    (okHere && licenseTailMatch l rest) ||
      match rest with
      | [] => false
      | d :: rest2 => licenseScan l (d.toLower = 's') rest2

/-- The license-match test of source lines 399-405.  The source builds
`new RegExp` from the template literal `\(\s|^)LICENSE\(\s|$)` with flag `i`;
JavaScript string-escape rules turn `\(` into `(` and `\s` into a literal
`s`, so the compiled pattern is `(s|^)LICENSE(s|$)` - the license name
delimited by a literal letter s (case-insensitive) or a string boundary,
not by whitespace.  This definition implements exactly that compiled
pattern for license identifiers without regex metacharacters (such as
`MIT`, the identifier the claims exercise). -/
def licenseRegexTest (license content : String) : Bool :=
  licenseScan license.toList true content.toList

/-- Modelled from the spec: the license-match check as the spec words it -
whether the content contains the license identifier as a whole-word,
case-insensitive token delimited by whitespace or string boundaries.  This
is the comparison definition for the refinement claim about the license
check; the definition taken from the source is `licenseRegexTest`. -/
def specWholeWordTailMatch : List Char → List Char → Bool
  | [], [] => true
  | [], d :: _ => d.isWhitespace
  | _ :: _, [] => false
  | c :: l, d :: rest => (c.toLower = d.toLower) && specWholeWordTailMatch l rest

/-- Modelled from the spec: scanner companion of `specWholeWordTailMatch`;
a position is eligible at the string start or after a whitespace character. -/
def specWholeWordScan (l : List Char) : Bool → List Char → Bool
  | okHere, rest =>
    (okHere && specWholeWordTailMatch l rest) ||
      match rest with
      | [] => false
      | d :: rest2 => specWholeWordScan l d.isWhitespace rest2

/-- Modelled from the spec: whole-word, case-insensitive containment of the
license identifier, delimited by whitespace or string boundaries. -/
def specWholeWordMatch (license content : String) : Bool :=
  specWholeWordScan license.toList true content.toList

/-- Exact substring containment on character lists (used to state what a
generated text does or does not contain). -/
def containsSub (n : List Char) : List Char → Bool
  | [] => n.isEmpty
  | d :: t => n.isPrefixOf (d :: t) || containsSub n t

/-- String wrapper for `containsSub`. -/
def containsStr (needle hay : String) : Bool :=
  containsSub needle.toList hay.toList

/-- Whether a string contains a given character. -/
def hasChar (c : Char) (s : String) : Bool :=
  s.toList.contains c

/-- Case-insensitive global multi-pattern replacement, the semantics of
`text.replace(/(p1|p2|...)/gi, repl)` for alternatives without regex
metacharacters: scan left to right; at each position try the alternatives in
listed order; on a match emit the replacement and resume after the matched
text (the replacement itself is never rescanned); otherwise copy one
character.  An empty pattern cannot occur among the source patterns; it is
handled by copying one character so the function stays total. -/
def replaceCIAux (pats : List (List Char)) (repl : List Char) :
    Nat → List Char → List Char
  | _ + 1, [] => []
  | skip + 1, _ :: rest => replaceCIAux pats repl skip rest
  | 0, [] => []
  | 0, d :: rest =>
    match pats.find? (fun p => ciPrefixMatch p (d :: rest)) with
    | some [] => d :: replaceCIAux pats repl 0 rest
    | some (_ :: p) => repl ++ replaceCIAux pats repl p.length rest
    | none => d :: replaceCIAux pats repl 0 rest

/-- String wrapper for `replaceCIAux`; the skip counter starts at zero. -/
def replaceCI (pats : List String) (repl : String) (s : String) : String :=
  String.mk (replaceCIAux (pats.map String.toList) repl.toList 0 s.toList)

/-- Year placeholder alternatives of the first `.replace` (source line 436). -/
def yearPatterns : List String :=
  ["<yyyy, yyyy>", "<year>", "<yyyy>"]

/-- Author and holder placeholder alternatives of the second `.replace`
(source line 440). -/
def authorPatterns : List String :=
  ["<author>", "<name of author>", "<owner organization name>",
   "<name of development group>", "<name of institution>", "<organization>",
   "<owner>", "<copyright holders>", "<holders>", "<copyright holder>",
   "<author\x27s name or designee>"]

/-- License-name placeholder alternative of the third `.replace`
(source line 444). -/
def licenseNamePatterns : List String :=
  ["<insert your license name here>"]

/-- Program and product placeholder alternatives of the fourth `.replace`
(source line 447). -/
def namePatterns : List String :=
  ["<program>", "<product>"]

/-- The ordered placeholder substitution applied to the fetched license text
(source lines 434-448): year tokens, then author and holder tokens, then the
license-name token, then program and product tokens, each case-insensitive.
The source obtains the year from the process clock
(`new Date().getFullYear().toString()`); the clock is modelled as the
`year` parameter. -/
def substituteLicenseText (year author license name text : String) : String :=
  replaceCI namePatterns name
    (replaceCI licenseNamePatterns license
      (replaceCI authorPatterns author
        (replaceCI yearPatterns year text)))

/-- Modelled from the spec: the canonical MIT license text the license
database dependency (`spdx-license-list/licenses/MIT`) supplies to the
create-LICENSE step.  The dependency data is not part of `src/`; the text
below is the canonical MIT template with its two placeholder tokens
`<year>` and `<copyright holders>`. -/
def mitLicenseText : String :=
  "MIT License\n\nCopyright (c) <year> <copyright holders>\n\nPermission is hereby granted, free of charge, to any person obtaining a copy of this software and associated documentation files (the \"Software\"), to deal in the Software without restriction, including without limitation the rights to use, copy, modify, merge, publish, distribute, sublicense, and/or sell copies of the Software, and to permit persons to whom the Software is furnished to do so, subject to the following conditions:\n\nThe above copyright notice and this permission notice shall be included in all copies or substantial portions of the Software.\n\nTHE SOFTWARE IS PROVIDED \"AS IS\", WITHOUT WARRANTY OF ANY KIND, EXPRESS OR IMPLIED, INCLUDING BUT NOT LIMITED TO THE WARRANTIES OF MERCHANTABILITY, FITNESS FOR A PARTICULAR PURPOSE AND NONINFRINGEMENT. IN NO EVENT SHALL THE AUTHORS OR COPYRIGHT HOLDERS BE LIABLE FOR ANY CLAIM, DAMAGES OR OTHER LIABILITY, WHETHER IN AN ACTION OF CONTRACT, TORT OR OTHERWISE, ARISING FROM, OUT OF OR IN CONNECTION WITH THE SOFTWARE OR THE USE OR OTHER DEALINGS IN THE SOFTWARE.\n"

/-- Strip a leading URI scheme from the git remote URL, the effect of
`url.replace(/^[^:]+:\/\//, "")` (source line 823): when the string has a
first colon at index at least 1 that is immediately followed by two slashes,
drop everything through those slashes; otherwise leave the string unchanged. -/
def stripScheme (s : String) : String :=
  let cs := s.toList
  match cs.findIdx? (· = ':') with
  | none => s
  | some i =>
    if 1 ≤ i && (cs.drop (i + 1)).take 2 = ['/', '/'] then
      String.mk (cs.drop (i + 3))
    else s

/-- A probed file: its path and its content (the shape `maybeReadFiles`
returns for the readme, license and code-of-conduct candidates). -/
structure FileRecord where
  path : String
  content : String
deriving DecidableEq, Repr

/-- The parsed git configuration as the wizard consumes it: only the origin
remote URL is read (`gitConfig?.remote?.origin?.url`). -/
structure GitConfig where
  originUrl : Option String
deriving DecidableEq, Repr

/-- The four manifest script names the wizard inspects. -/
inductive ScriptKey where
  | lint
  | test
  | format
  | release
deriving DecidableEq, Repr

/-- The script entries of a parsed manifest, as the wizard reads them
(`packageJson?.scripts?.lint` and so on); a missing entry is `none`. -/
structure Scripts where
  lint : Option String
  test : Option String
  format : Option String
  release : Option String
deriving DecidableEq, Repr

/-- Field access on `Scripts` by key. -/
def Scripts.get (s : Scripts) : ScriptKey → Option String
  | .lint => s.lint
  | .test => s.test
  | .format => s.format
  | .release => s.release

/-- The fixed invocation string each missing script is set to
(source lines 653-711). -/
def scriptCommand : ScriptKey → String
  | .lint => "pkg-cmd lint"
  | .test => "pkg-cmd test"
  | .format => "pkg-cmd format ."
  | .release => "pkg-cmd release"

/-- The fields of a parsed `package.json` the wizard reads.  Real manifests
carry arbitrary further data the wizard never touches. -/
structure Manifest where
  name : Option String
  description : Option String
  author : Option String
  license : Option String
  scripts : Option Scripts
deriving DecidableEq, Repr

/-- Everything the probing phase observed.  `packageJson = some none` means
the file is present (truthy content) but is not valid JSON; `some (some m)`
means present and parsed as `m`; `none` means absent or empty.  `goMod`
carries the raw text of a present, non-empty `go.mod`. -/
structure Probe where
  currentFolderName : String
  packageJson : Option (Option Manifest)
  goMod : Option String
  readmeFiles : List FileRecord
  licenseFiles : List FileRecord
  codeOfConductFiles : List FileRecord
  gitConfig : Option GitConfig
deriving DecidableEq, Repr

/-- The CLI options of the init subcommand: the single reinitialize flag
(named `reinitialize` in the source; renamed here to `reinitFlag`). -/
structure Options where
  reinitFlag : Bool
deriving DecidableEq, Repr

/-- One value per interactive question.  The wizard reads only the fields of
the questions it actually asks; an `inquirer` answer already reflects any
default the operator accepted, so each field is the final answer value. -/
structure Answers where
  reinitAnswer : Bool
  language : Lang
  initializeGit : Bool
  gitRemote : String
  addPreCommitLinting : Bool
  name : String
  description : String
  author : String
  license : String
  addCodeOfConduct : Bool
  addReadme : Bool
deriving DecidableEq, Repr

/-- Identifier of each interactive question, in source order. -/
inductive Question where
  | reinitConfirm
  | languageQ
  | initializeGitQ
  | gitRemoteQ
  | preCommitQ
  | nameQ
  | descriptionQ
  | authorQ
  | licenseQ
  | codeOfConductQ
  | readmeQ
deriving DecidableEq, Repr

/-- The fatal error kinds the wizard can throw before planning. -/
inductive Err where
  | ConflictingProjectType
  | InvalidManifest
  | GoRequiresGit
  | GoRequiresGitInit
deriving DecidableEq, Repr

/-- The `currentValues` accumulator of the source (lines 92-103). -/
structure CurrentValues where
  language : Option Lang
  name : Option String
  description : Option String
  author : Option String
  license : Option String
  gitRemote : Option String
  hasGit : Bool
deriving DecidableEq, Repr

/-- Sub-tasks of the Git group (source lines 354-394). -/
inductive GitTask where
  | gitInit
  | createGitignore (language : Lang)
  | addRemote (url : String)
deriving DecidableEq, Repr

/-- Sub-tasks of the package.json group (source lines 506-715). -/
inductive NodeTask where
  | createPackageJson (name : String)
  | setName (v : String)
  | setDescription (v : String)
  | setAuthor (v : String)
  | setLicense (v : String)
  | setRepository (url : String)
  | setScript (key : ScriptKey) (cmd : String)
deriving DecidableEq, Repr

/-- The top-level task groups, in the order the source pushes them.  The
`cleanup` flags record whether the group carries a clean-up-previous-files
sub-step (present exactly when candidates were probed). -/
inductive TaskGroup where
  | git (tasks : List GitTask)
  | license (cleanup : Bool)
  | codeOfConduct (cleanup : Bool)
  | packageJson (tasks : List NodeTask)
  | tooling
  | preCommitLinting
  | goModInit (modulePath : String)
  | readme (cleanup : Bool)
deriving DecidableEq, Repr

/-- Everything the resolver hands to the planning phase: probed state,
the accumulated `newValues`, and the fresh-vs-reinitialize flag. -/
structure Ctx where
  language : Lang
  fresh : Bool
  parsedManifest : Option Manifest
  current : CurrentValues
  newName : String
  newDescription : String
  newAuthor : String
  newLicense : String
  newInitializeGit : Option Bool
  newGitRemote : Option String
  newPreCommit : Option Bool
  addCodeOfConduct : Bool
  addReadme : Bool
  readmeFiles : List FileRecord
  licenseFiles : List FileRecord
  codeOfConductFiles : List FileRecord
deriving DecidableEq, Repr

/-- Result of the interactive phase: a fatal error, a successful early exit
(declined reinitialization), or a context for planning; each carries the
list of questions asked up to that point, in order. -/
inductive ResolveResult where
  | fatal (asked : List Question) (e : Err)
  | exitOk (asked : List Question)
  | ok (asked : List Question) (ctx : Ctx)
deriving DecidableEq, Repr

/-- Whether the probed manifest is present but unparseable (the state that
raises `InvalidManifest` at source lines 129-134). -/
def invalidManifest : Option (Option Manifest) → Bool
  | some none => true
  | _ => false

/-- The `hasGit` current value: whether a git configuration was found. -/
def hasGitB (p : Probe) : Bool :=
  p.gitConfig.isSome

/-- The probed origin remote URL, `gitConfig?.remote?.origin?.url`. -/
def currentRemote (p : Probe) : Option String :=
  p.gitConfig.bind (fun g => g.originUrl)

/-- The parsed manifest when present and valid. -/
def parsedManifestOf (p : Probe) : Option Manifest :=
  p.packageJson.bind id

/-- The `currentValues` accumulator after the probing assignments (source
lines 92-150): git facts, then the manifest fields when a manifest was
parsed, then the go fields when a module descriptor was read. -/
def currentValuesOf (p : Probe) : CurrentValues :=
  let cv0 : CurrentValues :=
    { language := none, name := none, description := none, author := none,
      license := none, gitRemote := currentRemote p, hasGit := hasGitB p }
  let cv1 := match parsedManifestOf p with
    | some m =>
      { cv0 with language := some Lang.node, name := m.name,
                 description := m.description, author := m.author,
                 license := m.license }
    | none => cv0
  match p.goMod with
  | some g => { cv1 with language := some Lang.go, name := some (parseGoMod g).module }
  | none => cv1

/-- Whether the reinitialize confirmation is asked (source line 155): a
manifest or module descriptor exists and the flag was not passed. -/
def askReinitB (opts : Options) (p : Probe) : Bool :=
  (p.packageJson.isSome || p.goMod.isSome) && !opts.reinitFlag

/-- The `freshInitialization` flag of a run that proceeds past the
confirmation: it starts `true` and is set to `false` exactly when the
confirmation was asked (and, on such a run, confirmed).  Passing the
reinitialize flag skips the prompt and leaves the run marked fresh. -/
def freshB (opts : Options) (p : Probe) : Bool :=
  !askReinitB opts p

/-- Whether the language question is asked (source line 201). -/
def askLanguageB (p : Probe) : Bool :=
  p.packageJson.isNone && p.goMod.isNone

/-- The `newValues.language` delta field. -/
def newLanguageOf (p : Probe) (ans : Answers) : Option Lang :=
  if askLanguageB p then some ans.language else none

/-- The effective language, `newValues.language || currentValues.language`
(source line 215); the fallback is unreachable because one of the two is
always set at that point (the source uses a non-null assertion). -/
def languageOf (p : Probe) (ans : Answers) : Lang :=
  ((newLanguageOf p ans).orElse (fun _ => (currentValuesOf p).language)).getD Lang.node

/-- Whether the git-init question is asked (source line 217). -/
def askInitGitB (p : Probe) : Bool :=
  !hasGitB p

/-- The `newValues.initializeGit` delta field. -/
def newInitializeGitOf (p : Probe) (ans : Answers) : Option Bool :=
  if askInitGitB p then some ans.initializeGit else none

/-- Whether the git-remote question is asked (source line 237):
`newValues.initializeGit || !currentValues.gitRemote`, with JS truthiness
on both sides. -/
def askRemoteB (p : Probe) (ans : Answers) : Bool :=
  (newInitializeGitOf p ans).getD false || !optTruthy (currentRemote p)

/-- The `newValues.gitRemote` delta field: set exactly when the remote
question was asked, to the raw free-text answer (possibly empty). -/
def newGitRemoteOf (p : Probe) (ans : Answers) : Option String :=
  if askRemoteB p ans then some ans.gitRemote else none

/-- Whether the pre-commit-linting question is asked (source line 249). -/
def askPreCommitB (p : Probe) (ans : Answers) : Bool :=
  (newInitializeGitOf p ans).getD false && languageOf p ans == Lang.node

/-- The `newValues.addPreCommitLinting` delta field. -/
def newPreCommitOf (p : Probe) (ans : Answers) : Option Bool :=
  if askPreCommitB p ans then some ans.addPreCommitLinting else none

/-- The context a run that reaches planning hands to the task planner: the
accumulated `newValues`, the probed state, and the fresh flag. -/
def wizardCtx (opts : Options) (p : Probe) (ans : Answers) : Ctx where
  language := languageOf p ans
  fresh := freshB opts p
  parsedManifest := parsedManifestOf p
  current := currentValuesOf p
  newName := ans.name
  newDescription := ans.description
  newAuthor := ans.author
  newLicense := ans.license
  newInitializeGit := newInitializeGitOf p ans
  newGitRemote := newGitRemoteOf p ans
  newPreCommit := newPreCommitOf p ans
  addCodeOfConduct := ans.addCodeOfConduct
  addReadme := ans.addReadme
  readmeFiles := p.readmeFiles
  licenseFiles := p.licenseFiles
  codeOfConductFiles := p.codeOfConductFiles

/-- The ordered list of questions a run that reaches planning asked: the
conditional confirmation, language, git-init, remote and pre-commit
questions followed by the six unconditional ones, in source order. -/
def askedOf (opts : Options) (p : Probe) (ans : Answers) : List Question :=
  (if askReinitB opts p then [Question.reinitConfirm] else []) ++
  (if askLanguageB p then [Question.languageQ] else []) ++
  (if askInitGitB p then [Question.initializeGitQ] else []) ++
  (if askRemoteB p ans then [Question.gitRemoteQ] else []) ++
  (if askPreCommitB p ans then [Question.preCommitQ] else []) ++
  [Question.nameQ, Question.descriptionQ, Question.authorQ,
   Question.licenseQ, Question.codeOfConductQ, Question.readmeQ]

/-- The interactive phase of `action` (source lines 80-344), in source
order: the conflicting-project-type check, the manifest validity check, the
reinitialize confirmation with its successful-exit decline path, the
go-without-git check, and the go-needs-git-init check inside the git-init
question; a run that survives them all yields the planning context. -/
def resolve (opts : Options) (p : Probe) (ans : Answers) : ResolveResult :=
  if p.packageJson.isSome && p.goMod.isSome then
    .fatal [] .ConflictingProjectType
  else if invalidManifest p.packageJson then
    .fatal [] .InvalidManifest
  else if askReinitB opts p && !ans.reinitAnswer then
    .exitOk [.reinitConfirm]
  else if p.goMod.isSome && !hasGitB p then
    .fatal (if askReinitB opts p then [Question.reinitConfirm] else []) .GoRequiresGit
  else if askInitGitB p && freshB opts p && !ans.initializeGit
      && newLanguageOf p ans = some Lang.go then
    .fatal ((if askReinitB opts p then [Question.reinitConfirm] else []) ++
            (if askLanguageB p then [Question.languageQ] else []) ++
            [Question.initializeGitQ]) .GoRequiresGitInit
  else
    .ok (askedOf opts p ans) (wizardCtx opts p ans)

/-- The `compact` helper of the source (lines 1009-1011): keep the present
entries of a list of nullable entries, in order. -/
def compact (l : List (Option α)) : List α :=
  l.filterMap id

/-- Sub-tasks of the Git group (source lines 354-394): init, gitignore
fetch, and - only when the remote answer is truthy - the remote-add step. -/
def gitGroupTasks (ctx : Ctx) : List GitTask :=
  compact
    [some GitTask.gitInit,
     some (GitTask.createGitignore ctx.language),
     if optTruthy ctx.newGitRemote then
       some (GitTask.addRemote (ctx.newGitRemote.getD ""))
     else none]

/-- The License group trigger (source lines 399-405): a truthy resolved
license whose identifier the first probed license file content does not
match under the compiled pattern (see `licenseRegexTest`); a missing first
file contributes the empty content. -/
def licenseGroupPlanned (ctx : Ctx) : Bool :=
  ctx.newLicense ≠ "" &&
    !licenseRegexTest ctx.newLicense
      (((ctx.licenseFiles.head?).map FileRecord.content).getD "")

/-- The lookup `packageJson?.scripts?.KEY` on the probed manifest. -/
def probedScript (ctx : Ctx) (k : ScriptKey) : Option String :=
  (ctx.parsedManifest.bind Manifest.scripts).bind (fun sc => sc.get k)

/-- One conditional set-script entry (source lines 653-711): the task is
planned exactly when the probed script value is not truthy, i.e. absent or
the empty string. -/
def scriptTask (ctx : Ctx) (k : ScriptKey) : Option NodeTask :=
  if optTruthy (probedScript ctx k) then none
  else some (NodeTask.setScript k (scriptCommand k))

/-- Sub-tasks of the package.json group (source lines 506-715), compacted
in source order: create when no manifest parsed, the four field updates
when the answer is truthy and differs from the probed value, the repository
update when the remote answer is truthy and differs, then the four script
entries. -/
def nodePackageJsonTasks (ctx : Ctx) : List NodeTask :=
  compact
    [if ctx.parsedManifest.isNone then
       some (NodeTask.createPackageJson ctx.newName)
     else none,
     if ctx.newName ≠ "" && ctx.current.name ≠ some ctx.newName then
       some (NodeTask.setName ctx.newName)
     else none,
     if ctx.newDescription ≠ "" && ctx.current.description ≠ some ctx.newDescription then
       some (NodeTask.setDescription ctx.newDescription)
     else none,
     if ctx.newAuthor ≠ "" && ctx.current.author ≠ some ctx.newAuthor then
       some (NodeTask.setAuthor ctx.newAuthor)
     else none,
     if ctx.newLicense ≠ "" && ctx.current.license ≠ some ctx.newLicense then
       some (NodeTask.setLicense ctx.newLicense)
     else none,
     if optTruthy ctx.newGitRemote && ctx.newGitRemote ≠ ctx.current.gitRemote then
       some (NodeTask.setRepository (ctx.newGitRemote.getD ""))
     else none,
     scriptTask ctx .lint,
     scriptTask ctx .test,
     scriptTask ctx .format,
     scriptTask ctx .release]

/-- The full ordered plan (source lines 349-891): the Git group when git is
being initialized; the License group under its trigger; the Code of Conduct
group when requested; for the node language the package.json group always,
the Tooling group on fresh initialization, and the Pre-commit group when
requested; the go-module-init task when the language is go, the run is
fresh and the remote answer is truthy; and the README group when requested. -/
def planTasks (ctx : Ctx) : List TaskGroup :=
  (if ctx.newInitializeGit.getD false then [TaskGroup.git (gitGroupTasks ctx)] else []) ++
  (if licenseGroupPlanned ctx then [TaskGroup.license (ctx.licenseFiles ≠ [])] else []) ++
  (if ctx.addCodeOfConduct then [TaskGroup.codeOfConduct (ctx.codeOfConductFiles ≠ [])] else []) ++
  (if ctx.language == Lang.node then
     [TaskGroup.packageJson (nodePackageJsonTasks ctx)] ++
     (if ctx.fresh then [TaskGroup.tooling] else []) ++
     (if ctx.newPreCommit.getD false then [TaskGroup.preCommitLinting] else [])
   else []) ++
  (if ctx.language == Lang.go && ctx.fresh && optTruthy ctx.newGitRemote then
     [TaskGroup.goModInit (stripScheme (ctx.newGitRemote.getD ""))]
   else []) ++
  (if ctx.addReadme then [TaskGroup.readme (ctx.readmeFiles ≠ [])] else [])

/-- Overall outcome of a run: a fatal error (the catch block prints it and
exits with status 1), the successful early exit of a declined
reinitialization (status 0), or the plan handed to the task runner. -/
inductive Outcome where
  | fatal (e : Err)
  | exitSuccess
  | plan (groups : List TaskGroup)
deriving DecidableEq, Repr

/-- The whole wizard: the interactive phase followed by planning, paired
with the ordered list of questions asked during the run. -/
def action (opts : Options) (p : Probe) (ans : Answers) : List Question × Outcome :=
  match resolve opts p ans with
  | .fatal a e => (a, .fatal e)
  | .exitOk a => (a, .exitSuccess)
  | .ok a ctx => (a, .plan (planTasks ctx))

/-- The plan of a run, empty when the run did not reach planning. -/
def planOf (opts : Options) (p : Probe) (ans : Answers) : List TaskGroup :=
  match (action opts p ans).2 with
  | .plan ts => ts
  | _ => []

/-- Observer: whether a group is the go-module-init task. -/
def isGoModInitGroup : TaskGroup → Bool
  | .goModInit _ => true
  | _ => false

/-- Observer: whether a plan contains the go-module-init task. -/
def plansGoModInit (ts : List TaskGroup) : Bool :=
  ts.any isGoModInitGroup

/-- Observer: whether a group is the License group. -/
def isLicenseGroup : TaskGroup → Bool
  | .license _ => true
  | _ => false

/-- Observer: whether a plan contains the License group. -/
def plansLicense (ts : List TaskGroup) : Bool :=
  ts.any isLicenseGroup

/-- Observer: whether a group contains the git-remote-add sub-step. -/
def groupHasAddRemote : TaskGroup → Bool
  | .git gts => gts.any (fun t => match t with | .addRemote _ => true | _ => false)
  | _ => false

/-- Observer: whether a group contains the repository-fields update. -/
def groupHasSetRepository : TaskGroup → Bool
  | .packageJson nts => nts.any (fun t => match t with | .setRepository _ => true | _ => false)
  | _ => false

/-- Observer: whether a group contains a set-script task for a given key. -/
def groupSetsScript (k : ScriptKey) : TaskGroup → Bool
  | .packageJson nts =>
    nts.any (fun t => match t with | .setScript k2 _ => k2 == k | _ => false)
  | _ => false

/-- A minimal parsed manifest used by concrete runs. -/
def plainManifest : Manifest where
  name := some "m"
  description := none
  author := none
  license := none
  scripts := none

/-- Default answers for concrete runs; individual runs override fields. -/
def baseAnswers : Answers where
  reinitAnswer := false
  language := Lang.node
  initializeGit := false
  gitRemote := ""
  addPreCommitLinting := false
  name := "demo"
  description := ""
  author := "A"
  license := "MIT"
  addCodeOfConduct := false
  addReadme := false

/-- Probe of a directory holding both a manifest and a module descriptor
(the conflicting state of claim C1). -/
def c1Probe : Probe where
  currentFolderName := "demo"
  packageJson := some (some plainManifest)
  goMod := some "module example.com/demo\n"
  readmeFiles := []
  licenseFiles := []
  codeOfConductFiles := []
  gitConfig := none

/-- Probe of a go project with a git configuration that has no origin
remote, used for the reinitialize-flag runs of claim C2. -/
def c2Probe : Probe where
  currentFolderName := "x"
  packageJson := none
  goMod := some "module example.com/foo\ngo 1.20\n"
  readmeFiles := []
  licenseFiles := []
  codeOfConductFiles := []
  gitConfig := some { originUrl := none }

/-- Answers of the claim C2 runs: the remote question is answered with a
non-empty URL. -/
def c2Answers : Answers :=
  { baseAnswers with language := Lang.go, gitRemote := "https://example.com/foo" }

/-- Answers of the claim C2 witness run: the confirmation is confirmed. -/
def c2wAnswers : Answers :=
  { c2Answers with reinitAnswer := true }

/-- Probe of a node directory whose only special state is an existing
LICENSE file reading `The MIT License` (claim C3). -/
def c3Probe : Probe where
  currentFolderName := "d"
  packageJson := none
  goMod := none
  readmeFiles := []
  licenseFiles := [{ path := "LICENSE", content := "The MIT License" }]
  codeOfConductFiles := []
  gitConfig := some { originUrl := some "u" }

/-- A manifest defining the lint script as the empty string and the other
three scripts as non-empty commands (claim C4). -/
def c4Manifest : Manifest where
  name := some "demo"
  description := none
  author := none
  license := some "MIT"
  scripts := some { lint := some "", test := some "t", format := some "f", release := some "r" }

/-- Probe of a node project carrying `c4Manifest` (claim C4). -/
def c4Probe : Probe where
  currentFolderName := "demo"
  packageJson := some (some c4Manifest)
  goMod := none
  readmeFiles := []
  licenseFiles := []
  codeOfConductFiles := []
  gitConfig := some { originUrl := some "u" }

/-- Context of the claim C4 witness runs with a truthy probed lint script. -/
def c4wCtxA : Ctx :=
  wizardCtx { reinitFlag := true }
    { c4Probe with
      packageJson := some (some { c4Manifest with
        scripts := some { lint := some "eslint .", test := some "t",
                          format := some "f", release := some "r" } }) }
    baseAnswers

/-- Context of the claim C4 witness runs with no probed scripts at all. -/
def c4wCtxB : Ctx :=
  wizardCtx { reinitFlag := true }
    { c4Probe with packageJson := some (some plainManifest) }
    baseAnswers

/-- Probe of an empty directory with no git configuration (claim C5). -/
def c5Probe : Probe where
  currentFolderName := "demo"
  packageJson := none
  goMod := none
  readmeFiles := []
  licenseFiles := []
  codeOfConductFiles := []
  gitConfig := none

/-- Answers of the claim C5 counterexample run: the operator chooses the go
language and accepts git initialization. -/
def c5Answers : Answers :=
  { baseAnswers with language := Lang.go, initializeGit := true }

/-- Probe of a go project without any git configuration (claim C5 witness). -/
def c5wProbe : Probe where
  currentFolderName := "g"
  packageJson := none
  goMod := some "module example.com/g\n"
  readmeFiles := []
  licenseFiles := []
  codeOfConductFiles := []
  gitConfig := none

/-- Probe of an already-initialized node project (claim C6 witness). -/
def c6Probe : Probe where
  currentFolderName := "demo"
  packageJson := some (some plainManifest)
  goMod := none
  readmeFiles := []
  licenseFiles := []
  codeOfConductFiles := []
  gitConfig := none

/-- Probe of an empty directory with no git configuration (claim C10
witness). -/
def c10Probe : Probe where
  currentFolderName := "w"
  packageJson := none
  goMod := none
  readmeFiles := []
  licenseFiles := []
  codeOfConductFiles := []
  gitConfig := none

/-- Answers of the claim C10 witness run: git initialization accepted and
the remote question answered with the empty string. -/
def c10Answers : Answers :=
  { baseAnswers with initializeGit := true, addPreCommitLinting := true }

/-- Membership in a compacted list is membership of the present entry. -/
theorem mem_compact {α : Type} {a : α} {l : List (Option α)} :
    a ∈ compact l ↔ some a ∈ l := by
  simp [compact, List.mem_filterMap]

/-- Any-check of a conditional singleton segment. -/
theorem any_cond_singleton (b : Bool) (g : TaskGroup) (f : TaskGroup → Bool) :
    (if b then [g] else []).any f = (b && f g) := by
  cases b <;> simp

/-- Any-check of a conditional list segment. -/
theorem any_cond_list (b : Bool) (l : List TaskGroup) (f : TaskGroup → Bool) :
    (if b then l else []).any f = (b && l.any f) := by
  cases b <;> simp

/-- A successful resolution always carries the asked-question list and the
wizard context of the run. -/
theorem resolve_ok_inv {opts : Options} {p : Probe} {ans : Answers}
    {qs : List Question} {ctx : Ctx}
    (h : resolve opts p ans = ResolveResult.ok qs ctx) :
    qs = askedOf opts p ans ∧ ctx = wizardCtx opts p ans := by
  unfold resolve at h
  repeat' split at h
  all_goals simp_all

/-- A run whose second component is a plan planned exactly the tasks of the
wizard context. -/
theorem action_plan_inv {opts : Options} {p : Probe} {ans : Answers}
    {ts : List TaskGroup} (h : (action opts p ans).2 = Outcome.plan ts) :
    ts = planTasks (wizardCtx opts p ans) := by
  unfold action at h
  cases hres : resolve opts p ans with
  | fatal a e => rw [hres] at h; simp at h
  | exitOk a => rw [hres] at h; simp at h
  | ok a ctx =>
    rw [hres] at h
    simp at h
    obtain ⟨-, hc⟩ := resolve_ok_inv hres
    rw [← h, hc]

/-- A planning context of a run that was prompted for reinitialization (and
therefore confirmed it) is never fresh. -/
theorem wizardCtx_fresh_of_prompted {opts : Options} {p : Probe} {ans : Answers}
    (hfiles : (p.packageJson.isSome || p.goMod.isSome) = true)
    (hflag : opts.reinitFlag = false) :
    (wizardCtx opts p ans).fresh = false := by
  simp [wizardCtx, freshB, askReinitB, hfiles, hflag]

/-- A non-fresh context never plans the go-module-init task. -/
theorem planTasks_goModInit_of_not_fresh {ctx : Ctx} (h : ctx.fresh = false) :
    plansGoModInit (planTasks ctx) = false := by
  simp only [planTasks, plansGoModInit, List.any_append, any_cond_singleton,
    any_cond_list, List.any_cons, List.any_nil, h]
  simp [isGoModInitGroup]

/-- C7: go-module parsing is a deterministic total Lean function; on the
three-line example it yields the two expected fields, on the empty string it
yields two empty fields, and a line matching neither prefix leaves the
accumulator unchanged, so unmatched lines never change the result. -/
theorem goMod_parse_total_and_examples :
    parseGoMod "module example.com/foo\ngo 1.20\nunrelated line\n"
      = { module := "example.com/foo", go := "1.20" }
    ∧ parseGoMod "" = { module := "", go := "" }
    ∧ ∀ (acc : GoMod) (line : List Char),
        "module ".toList.isPrefixOf line = false →
        "go ".toList.isPrefixOf line = false →
        goModStep acc line = acc := by
  refine ⟨by decide, by decide, fun acc line h1 h2 => ?_⟩
  unfold goModStep
  rw [if_neg (by simp only [h1]; exact Bool.false_ne_true),
      if_neg (by simp only [h2]; exact Bool.false_ne_true)]

/-- C7 witness: the theorem applied to a concrete accumulator and the
concrete unmatched line `unrelated line`. -/
theorem goMod_parse_total_and_examples_witness :
    goModStep { module := "a", go := "b" } "unrelated line".toList
      = { module := "a", go := "b" } :=
  goMod_parse_total_and_examples.2.2 { module := "a", go := "b" }
    "unrelated line".toList (by decide) (by decide)

/-- C8 counterexample: on the line `module  example.com/foo` (two spaces)
the parser keeps the whitespace after the prefix, so the module field is
` example.com/foo` and not the trimmed `example.com/foo` the claim states. -/
theorem goMod_module_not_trimmed_counterexample :
    (parseGoMod "module  example.com/foo").module = " example.com/foo"
    ∧ (parseGoMod "module  example.com/foo").module ≠ "example.com/foo" := by
  constructor
  · decide
  · decide

/-- C8 amended: a line beginning with the token `module ` sets the module
field to exactly the text after that 7-character prefix, with no trimming
of surrounding whitespace. -/
theorem goMod_module_untrimmed (acc : GoMod) (line : List Char)
    (h : "module ".toList.isPrefixOf line = true) :
    goModStep acc line = { acc with module := String.mk (line.drop 7) } := by
  unfold goModStep
  rw [if_pos h]

/-- C8 amended witness: the amended theorem applied at the two-space line;
the resulting module field keeps its leading space. -/
theorem goMod_module_untrimmed_witness :
    goModStep { module := "", go := "" } "module  example.com/foo".toList
      = { module := " example.com/foo", go := "" } := by
  rw [goMod_module_untrimmed { module := "", go := "" }
    "module  example.com/foo".toList (by decide)]
  decide

/-- C1: whenever both a manifest and a module descriptor are present, the
run ends with the fatal `ConflictingProjectType` error with an empty list
of asked questions - so before any interactive question - and with no plan,
so before any file write or side effect. -/
theorem conflict_fatal_before_questions (opts : Options) (p : Probe) (ans : Answers)
    (h1 : p.packageJson.isSome = true) (h2 : p.goMod.isSome = true) :
    action opts p ans = ([], Outcome.fatal Err.ConflictingProjectType) := by
  unfold action resolve
  simp [h1, h2]

/-- C1 witness: the theorem applied to the conflicting probe `c1Probe`. -/
theorem conflict_fatal_before_questions_witness :
    action { reinitFlag := false } c1Probe baseAnswers
      = ([], Outcome.fatal Err.ConflictingProjectType) :=
  conflict_fatal_before_questions { reinitFlag := false } c1Probe baseAnswers
    (by decide) (by decide)

/-- C6: when an existing manifest or module descriptor triggers the
reinitialize confirmation (no flag, no conflict, manifest valid) and the
operator declines, the run ends with the successful exit, having asked
exactly the confirmation question - so before any later question and
before any plan, file write or side effect. -/
theorem decline_reinit_exits_successfully (opts : Options) (p : Probe) (ans : Answers)
    (hsome : (p.packageJson.isSome || p.goMod.isSome) = true)
    (hconf : (p.packageJson.isSome && p.goMod.isSome) = false)
    (hval : invalidManifest p.packageJson = false)
    (hflag : opts.reinitFlag = false)
    (hans : ans.reinitAnswer = false) :
    action opts p ans = ([Question.reinitConfirm], Outcome.exitSuccess) := by
  unfold action resolve
  simp [askReinitB, hsome, hconf, hval, hflag, hans]

/-- C6 witness: the theorem applied to the already-initialized node
project `c6Probe` with the confirmation declined. -/
theorem decline_reinit_exits_successfully_witness :
    action { reinitFlag := false } c6Probe baseAnswers
      = ([Question.reinitConfirm], Outcome.exitSuccess) :=
  decline_reinit_exits_successfully { reinitFlag := false } c6Probe baseAnswers
    (by decide) (by decide) (by decide) (by decide) (by decide)

/-- C5 counterexample: a run on an empty directory with no git
configuration in which the operator chooses the go language and accepts git
initialization reaches planning, so the effective language is go, no git
configuration exists, and yet the outcome is not the fatal `GoRequiresGit`
error the claim requires - the source checks `goMod && !gitConfig`, not the
effective language. -/
theorem go_language_without_git_not_fatal_counterexample :
    c5Probe.gitConfig = none
    ∧ languageOf c5Probe c5Answers = Lang.go
    ∧ (action { reinitFlag := false } c5Probe c5Answers).2
        = Outcome.plan
            [TaskGroup.git [GitTask.gitInit, GitTask.createGitignore Lang.go],
             TaskGroup.license false]
    ∧ (action { reinitFlag := false } c5Probe c5Answers).2
        ≠ Outcome.fatal Err.GoRequiresGit := by
  refine ⟨by decide, by decide, by decide, by decide⟩

/-- C5 amended: the `GoRequiresGit` fatal error is raised exactly when a
module descriptor is present and no git configuration exists; on such a
run that passes the reinitialize confirmation (flag passed or confirmation
confirmed, with no manifest alongside), the outcome is the fatal
`GoRequiresGit` error. -/
theorem goMod_without_git_fatal (opts : Options) (p : Probe) (ans : Answers)
    (hgo : p.goMod.isSome = true)
    (hpj : p.packageJson = none)
    (hgit : p.gitConfig = none)
    (hpath : opts.reinitFlag = true ∨ ans.reinitAnswer = true) :
    (action opts p ans).2 = Outcome.fatal Err.GoRequiresGit := by
  unfold action resolve
  rcases hpath with h | h <;>
    simp [askReinitB, hasGitB, invalidManifest, hgo, hpj, hgit, h]

/-- C5 amended witness: the amended theorem applied to a go project with no
git configuration under the reinitialize flag. -/
theorem goMod_without_git_fatal_witness :
    (action { reinitFlag := true } c5wProbe baseAnswers).2
      = Outcome.fatal Err.GoRequiresGit :=
  goMod_without_git_fatal { reinitFlag := true } c5wProbe baseAnswers
    (by decide) (by decide) (by decide) (Or.inl (by decide))

/-- C2 counterexample: a run with the reinitialize flag against a project
whose module descriptor exists (and whose git configuration has no origin
remote) is a reinitialize run by the claim's definition, yet because the
flag skips the prompt without clearing `freshInitialization`, the plan does
contain the go-module-init task. -/
theorem reinit_flag_plans_goModInit_counterexample :
    c2Probe.goMod.isSome = true
    ∧ ({ reinitFlag := true : Options }).reinitFlag = true
    ∧ plansGoModInit (planOf { reinitFlag := true } c2Probe c2Answers) = true := by
  refine ⟨by decide, by decide, by decide⟩

/-- C2 amended: on a run against an existing project without the
reinitialize flag - so the confirmation is prompted, and reaching planning
means it was confirmed - the run is not fresh and the go-module-init task
is never planned.  Passing the flag instead leaves the run marked fresh, so
the task can still be planned. -/
theorem reinit_prompt_never_plans_goModInit (opts : Options) (p : Probe) (ans : Answers)
    (hfiles : (p.packageJson.isSome || p.goMod.isSome) = true)
    (hflag : opts.reinitFlag = false)
    (ts : List TaskGroup) (hplan : (action opts p ans).2 = Outcome.plan ts) :
    plansGoModInit ts = false := by
  have hts := action_plan_inv hplan
  subst hts
  exact planTasks_goModInit_of_not_fresh (wizardCtx_fresh_of_prompted hfiles hflag)

/-- C2 amended witness: the amended theorem applied to a prompt-confirmed
run against the go project `c2Probe`. -/
theorem reinit_prompt_never_plans_goModInit_witness :
    plansGoModInit (planOf { reinitFlag := false } c2Probe c2wAnswers) = false :=
  reinit_prompt_never_plans_goModInit { reinitFlag := false } c2Probe c2wAnswers
    (by decide) (by decide) (planOf { reinitFlag := false } c2Probe c2wAnswers)
    (by decide)

/-- Equation for membership of a some-or-none conditional entry. -/
theorem eq_ite_some_none {α : Type} {c : Prop} [Decidable c] {a b : α} :
    (some a = if c then some b else none) ↔ (c ∧ a = b) := by
  split <;> simp_all

/-- Equation for membership of a none-or-some conditional entry. -/
theorem eq_ite_none_some {α : Type} {c : Prop} [Decidable c] {a b : α} :
    (some a = if c then none else some b) ↔ (¬c ∧ a = b) := by
  split <;> simp_all

/-- A context whose resolved git remote is not truthy builds the Git group
without the remote-add sub-step. -/
theorem gitGroupTasks_no_remote {ctx : Ctx}
    (h : optTruthy ctx.newGitRemote = false) :
    gitGroupTasks ctx = [GitTask.gitInit, GitTask.createGitignore ctx.language] := by
  simp [gitGroupTasks, compact, h]

/-- A context whose resolved git remote is not truthy puts no repository
update among the package.json sub-tasks. -/
theorem nodePackageJsonTasks_no_repo {ctx : Ctx}
    (h : optTruthy ctx.newGitRemote = false) :
    (nodePackageJsonTasks ctx).any
      (fun t => match t with | NodeTask.setRepository _ => true | _ => false)
      = false := by
  rw [List.any_eq_false]
  intro x hx
  simp only [nodePackageJsonTasks, mem_compact, scriptTask, List.mem_cons,
    List.not_mem_nil, or_false, eq_ite_some_none, eq_ite_none_some] at hx
  rcases hx with ⟨-, rfl⟩ | ⟨-, rfl⟩ | ⟨-, rfl⟩ | ⟨-, rfl⟩ | ⟨-, rfl⟩ |
    ⟨hc, rfl⟩ | ⟨-, rfl⟩ | ⟨-, rfl⟩ | ⟨-, rfl⟩ | ⟨-, rfl⟩ <;> simp_all

/-- A context whose resolved git remote is not truthy plans no
remote-add sub-step, no repository update and no go-module-init task. -/
theorem planTasks_no_remote_steps {ctx : Ctx}
    (h : optTruthy ctx.newGitRemote = false) :
    ((planTasks ctx).any groupHasAddRemote = false)
    ∧ ((planTasks ctx).any groupHasSetRepository = false)
    ∧ (plansGoModInit (planTasks ctx) = false) := by
  refine ⟨?_, ?_, ?_⟩
  · simp only [planTasks, List.any_append, any_cond_singleton, any_cond_list,
      List.any_cons, List.any_nil]
    simp [groupHasAddRemote, gitGroupTasks_no_remote h]
  · simp only [planTasks, List.any_append, any_cond_singleton, any_cond_list,
      List.any_cons, List.any_nil]
    simp [groupHasSetRepository, nodePackageJsonTasks_no_repo h]
  · simp only [planTasks, plansGoModInit, List.any_append, any_cond_singleton,
      any_cond_list, List.any_cons, List.any_nil, h]
    simp [isGoModInitGroup]

/-- C10: when the git remote question is answered with the empty string,
the run treats it everywhere as no remote having been supplied - even
though the question was asked - so any resulting plan contains no
remote-add sub-step, no repository update and no go-module-init task. -/
theorem empty_remote_answer_means_no_remote (opts : Options) (p : Probe) (ans : Answers)
    (hr : ans.gitRemote = "")
    (_hq : Question.gitRemoteQ ∈ (action opts p ans).1)
    (ts : List TaskGroup) (hplan : (action opts p ans).2 = Outcome.plan ts) :
    (ts.any groupHasAddRemote = false)
    ∧ (ts.any groupHasSetRepository = false)
    ∧ (plansGoModInit ts = false) := by
  have hts := action_plan_inv hplan
  subst hts
  apply planTasks_no_remote_steps
  simp only [wizardCtx, newGitRemoteOf]
  split <;> simp [optTruthy, hr]

/-- C10 witness: the theorem applied to a run on an empty directory in
which git initialization is accepted and the remote question is answered
with the empty string. -/
theorem empty_remote_answer_means_no_remote_witness :
    ((planOf { reinitFlag := false } c10Probe c10Answers).any groupHasAddRemote = false)
    ∧ ((planOf { reinitFlag := false } c10Probe c10Answers).any groupHasSetRepository = false)
    ∧ (plansGoModInit (planOf { reinitFlag := false } c10Probe c10Answers) = false) :=
  empty_remote_answer_means_no_remote { reinitFlag := false } c10Probe c10Answers
    (by decide) (by decide)
    (planOf { reinitFlag := false } c10Probe c10Answers) (by decide)

/-- C3: the license-match check is not the whole-word whitespace-delimited
search the claim (and the inline source comment) describe.  The JS string
escapes in the template literal turn `\s` into a literal `s`, so the
compiled pattern is `(s|^)MIT(s|$)` with flag `i`.  On the content
`The MIT License` the whole-word check matches (so per the claim the
rewrite would be suppressed) while the compiled pattern does not, and a
full run against such a LICENSE file still plans the License group; the
compiled pattern instead matches letter-delimited content like `sMITs`. -/
theorem license_check_not_whole_word :
    specWholeWordMatch "MIT" "The MIT License" = true
    ∧ licenseRegexTest "MIT" "The MIT License" = false
    ∧ licenseRegexTest "MIT" "sMITs" = true
    ∧ plansLicense (planOf { reinitFlag := true } c3Probe baseAnswers) = true := by
  refine ⟨by decide, by decide, by decide, by decide⟩

/-- C4 counterexample: a manifest defining the lint script (as the empty
string) still gets a set-lint-script task planned, because the source uses
a JS truthiness check rather than a definedness check. -/
theorem defined_empty_script_overwritten_counterexample :
    ((c4Manifest.scripts.bind (fun sc => sc.get ScriptKey.lint)).isSome = true)
    ∧ ((planOf { reinitFlag := true } c4Probe baseAnswers).any
        (groupSetsScript ScriptKey.lint) = true) := by
  refine ⟨by decide, by decide⟩

/-- C4 amended: for each script name, if the probed manifest defines that
script with a truthy (non-empty) value, the package.json group contains no
task setting it; if the script is absent or defined as the empty string
(including when no manifest existed), the group sets exactly the fixed
invocation string for that script name. -/
theorem manifest_scripts_set_iff_not_truthy (ctx : Ctx) (k : ScriptKey) :
    (optTruthy (probedScript ctx k) = true →
      ∀ v, NodeTask.setScript k v ∉ nodePackageJsonTasks ctx)
    ∧ (optTruthy (probedScript ctx k) = false →
      (NodeTask.setScript k (scriptCommand k) ∈ nodePackageJsonTasks ctx
       ∧ ∀ v, NodeTask.setScript k v ∈ nodePackageJsonTasks ctx →
           v = scriptCommand k)) := by
  constructor
  · intro h v hmem
    simp only [nodePackageJsonTasks, mem_compact, scriptTask, List.mem_cons,
      List.not_mem_nil, or_false, eq_ite_some_none, eq_ite_none_some] at hmem
    rcases hmem with ⟨hc, h1⟩ | ⟨hc, h1⟩ | ⟨hc, h1⟩ | ⟨hc, h1⟩ | ⟨hc, h1⟩ |
      ⟨hc, h1⟩ | ⟨hc, h1⟩ | ⟨hc, h1⟩ | ⟨hc, h1⟩ | ⟨hc, h1⟩ <;> simp_all
  · intro h
    constructor
    · simp only [nodePackageJsonTasks, mem_compact, scriptTask, List.mem_cons,
        List.not_mem_nil, or_false, eq_ite_some_none, eq_ite_none_some]
      cases k <;> simp [h]
    · intro v hmem
      simp only [nodePackageJsonTasks, mem_compact, scriptTask, List.mem_cons,
        List.not_mem_nil, or_false, eq_ite_some_none, eq_ite_none_some] at hmem
      cases k <;>
        rcases hmem with ⟨hc, h1⟩ | ⟨hc, h1⟩ | ⟨hc, h1⟩ | ⟨hc, h1⟩ | ⟨hc, h1⟩ |
          ⟨hc, h1⟩ | ⟨hc, h1⟩ | ⟨hc, h1⟩ | ⟨hc, h1⟩ | ⟨hc, h1⟩ <;> simp_all

/-- C4 amended witness: the amended theorem applied at a context with a
truthy probed lint script (no set-lint task may appear) and at a context
with no probed scripts (the fixed lint invocation is planned). -/
theorem manifest_scripts_set_iff_not_truthy_witness :
    (NodeTask.setScript ScriptKey.lint "x" ∉ nodePackageJsonTasks c4wCtxA)
    ∧ NodeTask.setScript ScriptKey.lint (scriptCommand ScriptKey.lint)
        ∈ nodePackageJsonTasks c4wCtxB :=
  ⟨(manifest_scripts_set_iff_not_truthy c4wCtxA ScriptKey.lint).1 (by decide) "x",
   ((manifest_scripts_set_iff_not_truthy c4wCtxB ScriptKey.lint).2 (by decide)).1⟩

set_option maxRecDepth 100000 in
/-- C9: the ordered, case-insensitive placeholder substitution applied to
the MIT template with author `Jane Doe` - the clock modelled as the year
parameter, instantiated at the current year 2026 - yields a text containing
`Jane Doe` and the four-digit year and no unresolved placeholder token (the
template's placeholders `<year>` and `<copyright holders>` are both
consumed and no `<` remains at all). -/
theorem mit_substitution_resolves_placeholders :
    containsStr "<year>" mitLicenseText = true
    ∧ containsStr "<copyright holders>" mitLicenseText = true
    ∧ containsStr "Jane Doe"
        (substituteLicenseText "2026" "Jane Doe" "MIT" "demo" mitLicenseText) = true
    ∧ containsStr "2026"
        (substituteLicenseText "2026" "Jane Doe" "MIT" "demo" mitLicenseText) = true
    ∧ hasChar '<'
        (substituteLicenseText "2026" "Jane Doe" "MIT" "demo" mitLicenseText) = false := by
  refine ⟨by decide, by decide, by decide, by decide, by decide⟩
